import Mathlib

/-
Verification of the redis-backed fixed-window rate-limit store
(drivers/store/redis/store.go).

The Go driver talks to a redis server through the go-redis client.  We embed
it at two levels of abstraction:

1. A sequential state semantics: the redis database is an association list
   from keys to entries, and each redis command (SETNX, INCRBY, PTTL, EXPIRE,
   GET) is a pure function on that state, following the documented redis
   semantics.  Durations and instants are integers (milliseconds), matching
   PTTL resolution.  The protocol functions `peekValue`, `setValue`,
   `updateValue` and the public operations `GetVal`, `Get`, `Peek` are
   translated from store.go over this state.

2. A reply-trace semantics: for claims about the retry loops and the error
   paths, the outcome of each attempt (or of each command in one attempt)
   is an input, so that failures a sequential state cannot produce
   (transaction conflicts, races, malformed values, a vanished key between
   INCRBY and EXPIRE) are representable.  The loops `doPeekValue`,
   `doSetValue`, `doUpdateValue` are translated once more over such traces,
   instrumented with the number of attempts actually made.

Go errors are modelled as `Option String` (none = nil), mirroring the
multiple-return style of the source.
-/

/-- The error message produced by the retry loops in store.go when every
attempt failed (errors.New in doPeekValue, doSetValue, doUpdateValue). -/
def retryLimitExceeded : String := "retry limit exceeded"

/-- The error message produced by updateValue when the EXPIRE repair call
reports the key no longer exists (errors.New in updateValue). -/
def cannotConfigureTimeout : String := "cannot configure timeout on key"

/-- limiter.Rate as used by the store: Period is the window (here in
milliseconds), Limit the configured maximum. -/
structure Rate where
  period : Int
  limit : Int
deriving DecidableEq, Repr

/-- limiter.StoreOptions: the fields read by NewStoreWithOptions. -/
structure StoreOptions where
  pfx : String
  maxRetry : Int
deriving DecidableEq, Repr

/-- The Store struct from store.go: `Prefix` (here `pfx`) and `MaxRetry`.
The client handle is replaced by the explicit state or trace arguments. -/
structure Store where
  pfx : String
  maxRetry : Int
deriving DecidableEq, Repr

/-- Modelled from the spec: `common.GetContextFromState` and
`limiter.Context` live outside the provided source tree.  The spec describes
the result as "current timestamp, the window duration used, the counter
value, and the absolute expiration instant", so we record exactly those
four fields. -/
structure LimiterContext where
  timestamp : Int
  period : Int
  count : Int
  reset : Int
deriving DecidableEq, Repr

/-- Modelled from the spec: packages the observed state into the caller
facing snapshot; the count and expiration are passed through unchanged. -/
def GetContextFromState (now : Int) (rate : Rate) (expiration : Int)
    (count : Int) : LimiterContext :=
  { timestamp := now, period := rate.period, count := count, reset := expiration }

/-- A value stored at a redis key.  Redis stores strings but keeps
integer-shaped strings in an integer encoding; `int` is that case (all
values written by this driver), `raw` is an arbitrary string written by
some other system. -/
inductive RVal where
  | int : Int → RVal
  | raw : String → RVal
deriving DecidableEq, Repr

/-- Reading a value as an int64, as value.Int64 (strconv.ParseInt) does in
Go and as redis itself does for INCRBY. -/
def RVal.asInt : RVal → Option Int
  | .int n => some n
  | .raw s => s.toInt?

/-- One key entry: the stored value and the remaining time to live in
milliseconds (`none` = no expiration set).  Redis clamps a not yet expired
key at remaining 0, so the ttl of a live entry is never negative. -/
abbrev Entry := RVal × Option Int

/-- The redis database restricted to the keys of interest. -/
abbrev RedisState := List (String × Entry)

def lookupKey : RedisState → String → Option Entry
  | [], _ => none
  | (k, e) :: rest, key => if k = key then some e else lookupKey rest key

def setKey : RedisState → String → Entry → RedisState
  | [], key, e => [(key, e)]
  | (k, e0) :: rest, key, e =>
    if k = key then (k, e) :: rest else (k, e0) :: setKey rest key e

def delKey : RedisState → String → RedisState
  | [], _ => []
  | (k, e) :: rest, key =>
    if k = key then rest else (k, e) :: delKey rest key

/-- PTTL: -2 when the key is absent, -1 when it has no expiration, else the
remaining time in milliseconds (never negative for a live key). -/
def pttlCmd (s : RedisState) (key : String) : Int :=
  match lookupKey s key with
  | none => -2
  | some (_, none) => -1
  | some (_, some t) => t

/-- GET: the stored value, or none (redis Nil) when the key is absent. -/
def getCmd (s : RedisState) (key : String) : Option RVal :=
  (lookupKey s key).map (fun e => e.1)

/-- SETNX with expiration (go-redis sends SET key val NX PX when the
expiration is positive and a plain SETNX when it is zero): sets the key
only if absent, returns whether the set occurred. -/
def setNXCmd (s : RedisState) (key : String) (val : Int) (expiration : Int) :
    Bool × RedisState :=
  match lookupKey s key with
  | some _ => (false, s)
  | none =>
    (true, setKey s key (RVal.int val, if 0 < expiration then some expiration else none))

/-- INCRBY: creates an absent key (with no expiration) at the given amount,
otherwise adds to the stored value; errors when the stored value is not
integer shaped.  The expiration of an existing key is untouched. -/
def incrByCmd (s : RedisState) (key : String) (val : Int) :
    Except String (Int × RedisState) :=
  match lookupKey s key with
  | none => Except.ok (val, setKey s key (RVal.int val, none))
  | some (v, t) =>
    match v.asInt with
    | none => Except.error "ERR value is not an integer or out of range"
    | some n => Except.ok (n + val, setKey s key (RVal.int (n + val), t))

/-- EXPIRE: false when the key is absent; otherwise re-arms the ttl (a
non-positive duration deletes the key, still reporting true). -/
def expireCmd (s : RedisState) (key : String) (d : Int) : Bool × RedisState :=
  match lookupKey s key with
  | none => (false, s)
  | some (v, _) =>
    (true, if 0 < d then setKey s key (v, some d) else delKey s key)

/-- peekValue from store.go: pipeline of GET and PTTL.  A Nil reply from
GET (absent key) is not an error and leaves the count at 0; a stored value
that does not parse as an integer is a real error. -/
def peekValue (s : RedisState) (key : String) : Int × Int × Option String :=
  match getCmd s key with
  | none => (0, pttlCmd s key, none)
  | some v =>
    match v.asInt with
    | none => (0, 0, some "strconv.ParseInt: parsing: invalid syntax")
    | some n => (n, pttlCmd s key, none)

/-- setValue from store.go: SetNX of the value with the window as
expiration; returns whether the counter was created. -/
def setValue (s : RedisState) (key : String) (expiration val : Int) :
    (Bool × Option String) × RedisState :=
  let r := setNXCmd s key val expiration
  ((r.1, none), r.2)

/-- updateValue from store.go: pipeline of INCRBY and PTTL; when the
observed ttl is negative the EXPIRE repair step runs, and a false reply
from it is the cannot-configure-timeout error. -/
def updateValue (s : RedisState) (key : String) (expiration val : Int) :
    (Int × Int × Option String) × RedisState :=
  match incrByCmd s key val with
  | Except.error e => ((0, 0, some e), s)
  | Except.ok (count, s1) =>
    let ttl := pttlCmd s1 key
    if ttl < 0 then
      let r := expireCmd s1 key expiration
      if r.1 then ((count, ttl, none), r.2)
      else ((count, ttl, some cannotConfigureTimeout), r.2)
    else ((count, ttl, none), s1)

/-- The loop body of doPeekValue: up to `fuel` attempts of peekValue (which
never mutates the state), stopping at the first attempt without error. -/
def doPeekValueFuel (s : RedisState) (key : String) : Nat → Int × Int × Option String
  | 0 => (0, 0, some retryLimitExceeded)
  | Nat.succ n =>
    let r := peekValue s key
    match r.2.2 with
    | none => r
    | some _ => doPeekValueFuel s key n

/-- doPeekValue from store.go over the sequential state. -/
def doPeekValue (st : Store) (s : RedisState) (key : String) :
    Int × Int × Option String :=
  doPeekValueFuel s key st.maxRetry.toNat

/-- The loop body of doSetValue: up to `fuel` attempts of setValue,
threading the state, stopping at the first attempt without error. -/
def doSetValueFuel (key : String) (expiration val : Int) :
    Nat → RedisState → (Bool × Option String) × RedisState
  | 0, s => ((false, some retryLimitExceeded), s)
  | Nat.succ n, s =>
    let r := setValue s key expiration val
    match r.1.2 with
    | none => r
    | some _ => doSetValueFuel key expiration val n r.2

/-- doSetValue from store.go over the sequential state. -/
def doSetValue (st : Store) (s : RedisState) (key : String)
    (expiration val : Int) : (Bool × Option String) × RedisState :=
  doSetValueFuel key expiration val st.maxRetry.toNat s

/-- The loop body of doUpdateValue: up to `fuel` attempts of updateValue;
an error whose observed ttl is negative is returned at once instead of
being retried. -/
def doUpdateValueFuel (key : String) (expiration val : Int) :
    Nat → RedisState → (Int × Int × Option String) × RedisState
  | 0, s => ((0, 0, some retryLimitExceeded), s)
  | Nat.succ n, s =>
    let r := updateValue s key expiration val
    match r.1.2.2 with
    | none => r
    | some e =>
      if r.1.2.1 < 0 then ((0, 0, some e), r.2)
      else doUpdateValueFuel key expiration val n r.2

/-- doUpdateValue from store.go over the sequential state. -/
def doUpdateValue (st : Store) (s : RedisState) (key : String)
    (expiration val : Int) : (Int × Int × Option String) × RedisState :=
  doUpdateValueFuel key expiration val st.maxRetry.toNat s

/-- GetVal from store.go over the sequential state: namespaces the key,
runs the create-if-absent step, on created returns the fresh snapshot at
now + window, otherwise runs the increment step and uses the observed ttl
(falling back to the window when it is not positive).  Errors are wrapped
the way errors.Wrapf does. -/
def GetVal (st : Store) (s : RedisState) (key0 : String) (rate : Rate)
    (val now : Int) : Except String LimiterContext × RedisState :=
  let key := st.pfx ++ ":" ++ key0
  let rs := doSetValue st s key rate.period val
  match rs.1.2 with
  | some e =>
    (Except.error ("limiter: cannot get value for " ++ key ++ ": " ++ e), rs.2)
  | none =>
    if rs.1.1 then
      (Except.ok (GetContextFromState now rate (now + rate.period) val), rs.2)
    else
      let ru := doUpdateValue st rs.2 key rate.period val
      match ru.1.2.2 with
      | some e =>
        (Except.error ("limiter: cannot get value for " ++ key ++ ": " ++ e), ru.2)
      | none =>
        let ttl := ru.1.2.1
        let expiration := if 0 < ttl then now + ttl else now + rate.period
        (Except.ok (GetContextFromState now rate expiration ru.1.1), ru.2)

/-- Get from store.go: GetVal with amount 1. -/
def Get (st : Store) (s : RedisState) (key0 : String) (rate : Rate)
    (now : Int) : Except String LimiterContext × RedisState :=
  GetVal st s key0 rate 1 now

/-- Peek from store.go over the sequential state: read-only, so the state
is returned unchanged; the observed ttl is used when positive, the window
otherwise. -/
def Peek (st : Store) (s : RedisState) (key0 : String) (rate : Rate)
    (now : Int) : Except String LimiterContext × RedisState :=
  let key := st.pfx ++ ":" ++ key0
  let r := doPeekValue st s key
  match r.2.2 with
  | some e =>
    (Except.error ("limiter: cannot peek value for " ++ key ++ ": " ++ e), s)
  | none =>
    let ttl := r.2.1
    let expiration := if 0 < ttl then now + ttl else now + rate.period
    (Except.ok (GetContextFromState now rate expiration r.1), s)

/-
Reply-trace semantics.  An attempt trace gives the outcome of the n-th
attempt of the inner protocol step; the loops are translated again over
such traces and additionally report how many attempts they made.
-/

/-- The replies the redis client returns for the commands issued by one
updateValue attempt: the pipeline Exec error, the INCRBY reply, the PTTL
reply, and the EXPIRE reply (consulted only when the observed ttl is
negative). -/
structure UpdateReplies where
  execErr : Option String
  countRes : Except String Int
  ttlRes : Except String Int
  expireRes : Except String Bool
deriving Repr

/-- updateValue from store.go over one set of command replies: mirrors the
exact sequence of early returns in the source. -/
def updateValueT (r : UpdateReplies) : Int × Int × Option String :=
  match r.execErr with
  | some e => (0, 0, some e)
  | none =>
    match r.countRes with
    | Except.error e => (0, 0, some e)
    | Except.ok count =>
      match r.ttlRes with
      | Except.error e => (0, 0, some e)
      | Except.ok ttl =>
        if ttl < 0 then
          match r.expireRes with
          | Except.error e => (count, ttl, some e)
          | Except.ok true => (count, ttl, none)
          | Except.ok false => (count, ttl, some cannotConfigureTimeout)
        else (count, ttl, none)

/-- doPeekValue loop over an attempt trace, counting attempts. -/
def peekLoopT (att : Nat → Int × Int × Option String) :
    Nat → Nat → (Int × Int × Option String) × Nat
  | 0, used => ((0, 0, some retryLimitExceeded), used)
  | Nat.succ n, used =>
    let r := att used
    match r.2.2 with
    | none => (r, used + 1)
    | some _ => peekLoopT att n (used + 1)

/-- doPeekValue from store.go over an attempt trace: the pair of the Go
return value and the number of attempts made. -/
def doPeekValueT (st : Store) (att : Nat → Int × Int × Option String) :
    (Int × Int × Option String) × Nat :=
  peekLoopT att st.maxRetry.toNat 0

/-- doSetValue loop over an attempt trace, counting attempts. -/
def setLoopT (att : Nat → Bool × Option String) :
    Nat → Nat → (Bool × Option String) × Nat
  | 0, used => ((false, some retryLimitExceeded), used)
  | Nat.succ n, used =>
    let r := att used
    match r.2 with
    | none => (r, used + 1)
    | some _ => setLoopT att n (used + 1)

/-- doSetValue from store.go over an attempt trace. -/
def doSetValueT (st : Store) (att : Nat → Bool × Option String) :
    (Bool × Option String) × Nat :=
  setLoopT att st.maxRetry.toNat 0

/-- doUpdateValue loop over an attempt trace, counting attempts: an error
with a negative observed ttl stops the loop at once. -/
def updLoopT (att : Nat → Int × Int × Option String) :
    Nat → Nat → (Int × Int × Option String) × Nat
  | 0, used => ((0, 0, some retryLimitExceeded), used)
  | Nat.succ n, used =>
    let r := att used
    match r.2.2 with
    | none => (r, used + 1)
    | some e =>
      if r.2.1 < 0 then (((0, 0, some e) : Int × Int × Option String), used + 1)
      else updLoopT att n (used + 1)

/-- doUpdateValue from store.go over an attempt trace. -/
def doUpdateValueT (st : Store) (att : Nat → Int × Int × Option String) :
    (Int × Int × Option String) × Nat :=
  updLoopT att st.maxRetry.toNat 0

/-- GetVal from store.go over attempt traces for the two inner steps
(create-if-absent and increment), for claims about error propagation. -/
def GetValT (st : Store) (setAtt : Nat → Bool × Option String)
    (updAtt : Nat → Int × Int × Option String) (key0 : String) (rate : Rate)
    (val now : Int) : Except String LimiterContext :=
  let key := st.pfx ++ ":" ++ key0
  let rs := doSetValueT st setAtt
  match rs.1.2 with
  | some e => Except.error ("limiter: cannot get value for " ++ key ++ ": " ++ e)
  | none =>
    if rs.1.1 then
      Except.ok (GetContextFromState now rate (now + rate.period) val)
    else
      let ru := doUpdateValueT st updAtt
      match ru.1.2.2 with
      | some e => Except.error ("limiter: cannot get value for " ++ key ++ ": " ++ e)
      | none =>
        let ttl := ru.1.2.1
        let expiration := if 0 < ttl then now + ttl else now + rate.period
        Except.ok (GetContextFromState now rate expiration ru.1.1)

/-- ping from store.go: wraps a client error, otherwise reports whether the
reply was the PONG acknowledgment. -/
def ping (reply : Except String String) : Except String Bool :=
  match reply with
  | Except.error e => Except.error ("limiter: cannot ping redis server: " ++ e)
  | Except.ok pong => Except.ok (pong == "PONG")

/-- NewStoreWithOptions from store.go: defaults a non-positive MaxRetry to
1, then pings; only a ping error fails construction (the boolean reply of
ping is discarded, as in the source). -/
def NewStoreWithOptions (options : StoreOptions)
    (pingReply : Except String String) : Except String Store :=
  let st : Store :=
    { pfx := options.pfx
      maxRetry := if options.maxRetry ≤ 0 then 1 else options.maxRetry }
  match ping pingReply with
  | Except.error e => Except.error e
  | Except.ok _ => Except.ok st

/-
Helper lemmas shared by the claim theorems.
-/

theorem lookup_setKey_self (s : RedisState) (key : String) (e : Entry) :
    lookupKey (setKey s key e) key = some e := by
  induction s with
  | nil => simp [setKey, lookupKey]
  | cons hd tl ih =>
    obtain ⟨k, e0⟩ := hd
    by_cases h : k = key <;> simp [setKey, lookupKey, h, ih]

theorem GetVal_absent (st : Store) (s : RedisState) (key0 : String)
    (rate : Rate) (val now : Int) (hretry : 0 < st.maxRetry)
    (hperiod : 0 < rate.period)
    (habsent : lookupKey s (st.pfx ++ ":" ++ key0) = none) :
    GetVal st s key0 rate val now =
      (Except.ok
        { timestamp := now, period := rate.period, count := val,
          reset := now + rate.period },
       setKey s (st.pfx ++ ":" ++ key0) (RVal.int val, some rate.period)) := by
  obtain ⟨n, hn⟩ : ∃ n, st.maxRetry.toNat = n + 1 :=
    ⟨st.maxRetry.toNat - 1, by omega⟩
  have hset : doSetValue st s (st.pfx ++ ":" ++ key0) rate.period val =
      ((true, none),
       setKey s (st.pfx ++ ":" ++ key0) (RVal.int val, some rate.period)) := by
    unfold doSetValue
    rw [hn]
    simp [doSetValueFuel, setValue, setNXCmd, habsent, hperiod]
  simp [GetVal, hset, GetContextFromState]

theorem peekLoopT_allfail (att : Nat → Int × Int × Option String)
    (h : ∀ i, (att i).2.2 ≠ none) :
    ∀ n used, peekLoopT att n used = ((0, 0, some retryLimitExceeded), used + n) := by
  intro n
  induction n with
  | zero => intro used; simp [peekLoopT]
  | succ m ih =>
    intro used
    have hu := h used
    rcases he : (att used).2.2 with _ | e
    · exact absurd he hu
    · simp only [peekLoopT, he]
      rw [ih (used + 1)]
      congr 1
      omega

theorem setLoopT_allfail (att : Nat → Bool × Option String)
    (h : ∀ i, (att i).2 ≠ none) :
    ∀ n used, setLoopT att n used = ((false, some retryLimitExceeded), used + n) := by
  intro n
  induction n with
  | zero => intro used; simp [setLoopT]
  | succ m ih =>
    intro used
    have hu := h used
    rcases he : (att used).2 with _ | e
    · exact absurd he hu
    · simp only [setLoopT, he]
      rw [ih (used + 1)]
      congr 1
      omega

theorem updLoopT_allfail (att : Nat → Int × Int × Option String)
    (h : ∀ i, (att i).2.2 ≠ none ∧ 0 ≤ (att i).2.1) :
    ∀ n used, updLoopT att n used = ((0, 0, some retryLimitExceeded), used + n) := by
  intro n
  induction n with
  | zero => intro used; simp [updLoopT]
  | succ m ih =>
    intro used
    have hu := (h used).1
    have hge := (h used).2
    rcases he : (att used).2.2 with _ | e
    · exact absurd he hu
    · have hnotlt : ¬ (att used).2.1 < 0 := by omega
      simp only [updLoopT, he, hnotlt, if_false]
      rw [ih (used + 1)]
      congr 1
      omega

/-- Claim C1: for every key not present in the store, GetVal takes the
created branch of the create-if-absent step and returns a CounterState with
count equal to the increment amount and expiration exactly now + window,
leaving the key set to that amount with time-to-live equal to the window. -/
theorem getval_absent_creates (st : Store) (s : RedisState) (key0 : String)
    (rate : Rate) (val now : Int) (hretry : 0 < st.maxRetry)
    (hperiod : 0 < rate.period)
    (habsent : lookupKey s (st.pfx ++ ":" ++ key0) = none) :
    (GetVal st s key0 rate val now).1 =
      Except.ok
        { timestamp := now, period := rate.period, count := val,
          reset := now + rate.period } ∧
    lookupKey (GetVal st s key0 rate val now).2 (st.pfx ++ ":" ++ key0) =
      some (RVal.int val, some rate.period) := by
  have h := GetVal_absent st s key0 rate val now hretry hperiod habsent
  rw [h]
  exact ⟨rfl, lookup_setKey_self s _ _⟩

/-- Claim C1 witness at a concrete input. -/
theorem getval_absent_creates_witness :
    (GetVal ⟨"limiter", 1⟩ [] "k" ⟨1000, 10⟩ 1 0).1 =
      Except.ok
        { timestamp := 0, period := 1000, count := 1, reset := 0 + 1000 } ∧
    lookupKey (GetVal ⟨"limiter", 1⟩ [] "k" ⟨1000, 10⟩ 1 0).2
      ((⟨"limiter", 1⟩ : Store).pfx ++ ":" ++ "k") =
      some (RVal.int 1, some 1000) := by
  exact getval_absent_creates ⟨"limiter", 1⟩ [] "k" ⟨1000, 10⟩ 1 0
    (by decide) (by decide) rfl

/-- Claim C10: Get returns exactly what GetVal returns at the same
arguments with increment amount 1; the default amount is 1. -/
theorem get_defaults_to_one (st : Store) (s : RedisState) (key0 : String)
    (rate : Rate) (now : Int) :
    Get st s key0 rate now = GetVal st s key0 rate 1 now := rfl

/-- Claim C9 counterexample: a liveness probe that answers without error
but with a reply other than PONG does not fail construction, although the
claim says construction fails whenever the probe does not return the
expected acknowledgment. -/
theorem construction_ignores_ack_cex :
    NewStoreWithOptions ⟨"limiter", 0⟩ (Except.ok "NOT-PONG") =
      Except.ok ⟨"limiter", 1⟩ ∧
    ping (Except.ok "NOT-PONG") = Except.ok false := by
  constructor
  · rfl
  · rfl

/-- Claim C9 amended: store construction fails exactly when the liveness
probe returns an error; the content of a successful probe reply is
discarded, so a wrong acknowledgment string does not fail construction. -/
theorem construction_fails_iff_ping_errors (opts : StoreOptions)
    (reply : Except String String) :
    (∃ e, NewStoreWithOptions opts reply = Except.error e) ↔
      ∃ e, reply = Except.error e := by
  cases reply with
  | error e => simp [NewStoreWithOptions, ping]
  | ok pong => simp [NewStoreWithOptions, ping]

/-- Claim C3 counterexample: with an observed time-to-live of exactly 0
(a non-positive value redis PTTL can report for a key at its expiry
boundary millisecond), updateValue does not run the EXPIRE repair step,
and a Peek immediately afterwards still reports a non-positive
time-to-live; the repair in the source triggers only on a strictly
negative observed ttl. -/
theorem update_ttl_zero_no_repair_cex :
    updateValue [("limiter:k", (RVal.int 5, some 0))] "limiter:k" 1000 1 =
      ((6, 0, none), [("limiter:k", (RVal.int 6, some 0))]) ∧
    ¬ 0 < (peekValue [("limiter:k", (RVal.int 6, some 0))] "limiter:k").2.1 := by
  constructor
  · rfl
  · decide

/-- Claim C3 amended: whenever the time-to-live observed by updateValue
immediately after the atomic add is strictly negative, the EXPIRE repair
step runs with the given window, so that a Peek immediately afterwards
reports a positive time-to-live that is at most the window. -/
theorem update_repairs_negative_ttl (s : RedisState) (key : String)
    (w val : Int) (hw : 0 < w)
    (hnoexp : ∀ v t, lookupKey s key = some (v, t) → t = none)
    (hparse : ∀ v t, lookupKey s key = some (v, t) → v.asInt ≠ none) :
    (updateValue s key w val).1.2.2 = none ∧
    (updateValue s key w val).1.2.1 < 0 ∧
    0 < (peekValue (updateValue s key w val).2 key).2.1 ∧
    (peekValue (updateValue s key w val).2 key).2.1 ≤ w := by
  rcases hl : lookupKey s key with _ | vt
  · simp [updateValue, incrByCmd, hl, pttlCmd, lookup_setKey_self, expireCmd,
      hw, peekValue, getCmd, RVal.asInt]
  · obtain ⟨v, t⟩ := vt
    have ht : t = none := hnoexp v t hl
    subst ht
    have hv := hparse v none hl
    rcases hn : v.asInt with _ | n
    · exact absurd hn hv
    · have hincr : incrByCmd s key val =
          Except.ok (n + val, setKey s key (RVal.int (n + val), none)) := by
        simp [incrByCmd, hl, hn]
      simp [updateValue, hincr, pttlCmd, lookup_setKey_self, expireCmd, hw,
        peekValue, getCmd, RVal.asInt]

/-- Claim C3 amended, witness at a concrete input. -/
theorem update_repairs_negative_ttl_witness :
    (updateValue [] "limiter:k" 1000 1).1.2.2 = none ∧
    (updateValue [] "limiter:k" 1000 1).1.2.1 < 0 ∧
    0 < (peekValue (updateValue [] "limiter:k" 1000 1).2 "limiter:k").2.1 ∧
    (peekValue (updateValue [] "limiter:k" 1000 1).2 "limiter:k").2.1 ≤ 1000 := by
  exact update_repairs_negative_ttl [] "limiter:k" 1000 1 (by decide)
    (fun v t h => nomatch h) (fun v t h => nomatch h)

/-- Claim C2: for every GetVal call where the create-if-absent step reports
created = false (the key already holds an integer counter), the call falls
through to the increment step, and the returned CounterState has count
equal to the post-increment counter value, with expiration now + ttl when
the observed ttl is positive and now + window otherwise. -/
theorem getval_present_increments (st : Store) (s : RedisState)
    (key0 : String) (rate : Rate) (val now v : Int) (v0 : RVal)
    (t : Option Int) (hretry : 0 < st.maxRetry)
    (hpresent : lookupKey s (st.pfx ++ ":" ++ key0) = some (v0, t))
    (hparse : v0.asInt = some v) :
    (GetVal st s key0 rate val now).1 =
      Except.ok
        { timestamp := now, period := rate.period, count := v + val,
          reset := now + (if 0 < pttlCmd s (st.pfx ++ ":" ++ key0)
            then pttlCmd s (st.pfx ++ ":" ++ key0) else rate.period) } := by
  obtain ⟨n, hn⟩ : ∃ n, st.maxRetry.toNat = n + 1 :=
    ⟨st.maxRetry.toNat - 1, by omega⟩
  have hset : doSetValue st s (st.pfx ++ ":" ++ key0) rate.period val =
      ((false, none), s) := by
    unfold doSetValue
    rw [hn]
    simp [doSetValueFuel, setValue, setNXCmd, hpresent]
  have hincr : incrByCmd s (st.pfx ++ ":" ++ key0) val =
      Except.ok (v + val,
        setKey s (st.pfx ++ ":" ++ key0) (RVal.int (v + val), t)) := by
    simp [incrByCmd, hpresent, hparse]
  have hupd : (updateValue s (st.pfx ++ ":" ++ key0) rate.period val).1 =
      (v + val, pttlCmd s (st.pfx ++ ":" ++ key0), none) := by
    cases t with
    | none =>
      simp [updateValue, hincr, pttlCmd, lookup_setKey_self, expireCmd,
        hpresent]
    | some x =>
      by_cases hx : x < 0
      · simp [updateValue, hincr, pttlCmd, lookup_setKey_self, expireCmd,
          hpresent, hx]
      · simp [updateValue, hincr, pttlCmd, lookup_setKey_self, expireCmd,
          hpresent, hx]
  obtain ⟨r, s2, hr⟩ :
      ∃ r s2, updateValue s (st.pfx ++ ":" ++ key0) rate.period val = (r, s2) :=
    ⟨_, _, rfl⟩
  have hr1 : r = (v + val, pttlCmd s (st.pfx ++ ":" ++ key0), none) := by
    rw [← hupd, hr]
  have hdo : doUpdateValue st s (st.pfx ++ ":" ++ key0) rate.period val =
      (r, s2) := by
    unfold doUpdateValue
    rw [hn]
    simp only [doUpdateValueFuel]
    rw [hr, hr1]
  simp [GetVal, hset, hdo, hr1, GetContextFromState]
  split <;> rfl

/-- Claim C2 witness at a concrete input. -/
theorem getval_present_increments_witness :
    (GetVal ⟨"limiter", 1⟩ [("limiter:k", (RVal.int 5, some 400))] "k"
        ⟨1000, 10⟩ 1 0).1 =
      Except.ok { timestamp := 0, period := 1000, count := 6, reset := 400 } := by
  have h := getval_present_increments ⟨"limiter", 1⟩
      [("limiter:k", (RVal.int 5, some 400))] "k" ⟨1000, 10⟩ 1 0 5
      (RVal.int 5) (some 400) (by decide) rfl rfl
  rw [h]
  congr 1

/-- Claim C7 counterexample: for an absent key the time-to-live observed by
the peek step is the redis absent-key sentinel -2 (milliseconds), not 0 as
the claim states. -/
theorem peek_absent_ttl_cex :
    peekValue [] "limiter:k" = (0, -2, none) ∧ ((-2 : Int) ≠ 0) := by
  constructor
  · rfl
  · decide

/-- Claim C7 amended: for every key absent from the store, Peek succeeds
(key absence is not an error) with count = 0, an observed time-to-live
equal to the absent-key sentinel -2 (a non-positive value), and expiration
now + window; it does not mutate the store, and a following GetVal still
observes the key as absent and creates it with count = 1. -/
theorem peek_absent_readonly (st : Store) (s : RedisState) (key0 : String)
    (rate : Rate) (now : Int) (hretry : 0 < st.maxRetry)
    (hperiod : 0 < rate.period)
    (habsent : lookupKey s (st.pfx ++ ":" ++ key0) = none) :
    Peek st s key0 rate now =
      (Except.ok
        { timestamp := now, period := rate.period, count := 0,
          reset := now + rate.period }, s) ∧
    peekValue s (st.pfx ++ ":" ++ key0) = (0, -2, none) ∧
    (GetVal st s key0 rate 1 now).1 =
      Except.ok
        { timestamp := now, period := rate.period, count := 1,
          reset := now + rate.period } := by
  have hpeek : peekValue s (st.pfx ++ ":" ++ key0) = (0, -2, none) := by
    simp [peekValue, getCmd, habsent, pttlCmd]
  refine ⟨?_, hpeek, ?_⟩
  · obtain ⟨n, hn⟩ : ∃ n, st.maxRetry.toNat = n + 1 :=
      ⟨st.maxRetry.toNat - 1, by omega⟩
    have hdo : doPeekValue st s (st.pfx ++ ":" ++ key0) = (0, -2, none) := by
      unfold doPeekValue
      rw [hn]
      simp [doPeekValueFuel, hpeek]
    simp [Peek, hdo, GetContextFromState]
  · have h := GetVal_absent st s key0 rate 1 now hretry hperiod habsent
    rw [h]

/-- Claim C7 amended, witness at a concrete input. -/
theorem peek_absent_readonly_witness :
    Peek ⟨"limiter", 1⟩ [] "k" ⟨1000, 10⟩ 0 =
      (Except.ok
        { timestamp := 0, period := 1000, count := 0, reset := 0 + 1000 },
       []) ∧
    peekValue [] ((⟨"limiter", 1⟩ : Store).pfx ++ ":" ++ "k") = (0, -2, none) ∧
    (GetVal ⟨"limiter", 1⟩ [] "k" ⟨1000, 10⟩ 1 0).1 =
      Except.ok
        { timestamp := 0, period := 1000, count := 1, reset := 0 + 1000 } := by
  exact peek_absent_readonly ⟨"limiter", 1⟩ [] "k" ⟨1000, 10⟩ 0
    (by decide) (by decide) rfl

/-- Claim C4 counterexample: a malformed-stored-value error (not a
transaction conflict) injected on every attempt is retried by doPeekValue
until the budget of 3 is exhausted, instead of aborting the call after the
first attempt, and the surfaced error is the generic retry-limit-exceeded
one rather than the original error. -/
theorem retry_loops_error_agnostic_cex :
    doPeekValueT ⟨"limiter", 3⟩
        (fun _ => (0, 0, some "strconv.ParseInt: parsing: invalid syntax")) =
      ((0, 0, some retryLimitExceeded), 3) ∧
    (3 : Nat) ≠ 1 ∧
    retryLimitExceeded ≠ "strconv.ParseInt: parsing: invalid syntax" := by
  refine ⟨rfl, by decide, by decide⟩

/-- Claim C4 amended: the local retry loops do not inspect the kind of the
error returned by the inner step: any error (conflict, malformed value,
I/O failure) is retried until the attempt budget is exhausted, after which
the generic retry-limit-exceeded error replaces the original one.  (The
one exception, stated by claim C5, is an increment attempt whose observed
ttl was negative.) -/
theorem retry_loops_error_agnostic (st : Store)
    (attP : Nat → Int × Int × Option String)
    (attS : Nat → Bool × Option String)
    (hP : ∀ i, (attP i).2.2 ≠ none) (hS : ∀ i, (attS i).2 ≠ none) :
    doPeekValueT st attP =
      ((0, 0, some retryLimitExceeded), st.maxRetry.toNat) ∧
    doSetValueT st attS =
      ((false, some retryLimitExceeded), st.maxRetry.toNat) := by
  constructor
  · simpa [doPeekValueT] using peekLoopT_allfail attP hP st.maxRetry.toNat 0
  · simpa [doSetValueT] using setLoopT_allfail attS hS st.maxRetry.toNat 0

/-- Claim C4 amended, witness at a concrete input. -/
theorem retry_loops_error_agnostic_witness :
    doPeekValueT ⟨"limiter", 2⟩ (fun _ => (0, 0, some "i/o timeout")) =
      ((0, 0, some retryLimitExceeded),
       (⟨"limiter", 2⟩ : Store).maxRetry.toNat) ∧
    doSetValueT ⟨"limiter", 2⟩ (fun _ => (false, some "i/o timeout")) =
      ((false, some retryLimitExceeded),
       (⟨"limiter", 2⟩ : Store).maxRetry.toNat) := by
  exact retry_loops_error_agnostic ⟨"limiter", 2⟩ _ _
    (fun i => by simp) (fun i => by simp)

/-- Claim C5: if an increment attempt both observed a negative ttl and
returned an error, doUpdateValue aborts at once with that error after a
single attempt, instead of consuming the remaining attempt budget. -/
theorem negative_ttl_error_aborts (st : Store)
    (att : Nat → Int × Int × Option String) (c t : Int) (e : String)
    (hretry : 0 < st.maxRetry) (h0 : att 0 = (c, t, some e)) (ht : t < 0) :
    doUpdateValueT st att = ((0, 0, some e), 1) := by
  obtain ⟨n, hn⟩ : ∃ n, st.maxRetry.toNat = n + 1 :=
    ⟨st.maxRetry.toNat - 1, by omega⟩
  simp [doUpdateValueT, hn, updLoopT, h0, ht]

/-- Claim C5 witness at a concrete input: budget 3, yet one attempt. -/
theorem negative_ttl_error_aborts_witness :
    doUpdateValueT ⟨"limiter", 3⟩ (fun _ => (7, -1, some "expire failed")) =
      ((0, 0, some "expire failed"), 1) := by
  exact negative_ttl_error_aborts ⟨"limiter", 3⟩ _ 7 (-1) "expire failed"
    (by decide) rfl (by decide)

/-- Claim C6: when the EXPIRE repair inside the increment step reports the
key no longer exists (a false reply without error), updateValue fails with
the cannot-configure-timeout error, the retry loop returns it at once (the
observed ttl was negative), and GetVal surfaces it to the caller wrapped
with the namespaced key; the condition is never silently ignored. -/
theorem cannot_set_expiration_surfaced (r : UpdateReplies) (c t : Int)
    (st : Store) (key0 : String) (rate : Rate) (val now : Int)
    (hexec : r.execErr = none) (hcount : r.countRes = Except.ok c)
    (httl : r.ttlRes = Except.ok t) (hneg : t < 0)
    (hexpire : r.expireRes = Except.ok false) (hretry : 0 < st.maxRetry) :
    updateValueT r = (c, t, some cannotConfigureTimeout) ∧
    doUpdateValueT st (fun _ => updateValueT r) =
      ((0, 0, some cannotConfigureTimeout), 1) ∧
    GetValT st (fun _ => (false, none)) (fun _ => updateValueT r) key0 rate
        val now =
      Except.error ("limiter: cannot get value for " ++
        (st.pfx ++ ":" ++ key0) ++ ": " ++ cannotConfigureTimeout) := by
  have hu : updateValueT r = (c, t, some cannotConfigureTimeout) := by
    simp [updateValueT, hexec, hcount, httl, hneg, hexpire]
  obtain ⟨n, hn⟩ : ∃ n, st.maxRetry.toNat = n + 1 :=
    ⟨st.maxRetry.toNat - 1, by omega⟩
  have hdo : doUpdateValueT st (fun _ => updateValueT r) =
      ((0, 0, some cannotConfigureTimeout), 1) := by
    simp [doUpdateValueT, hn, updLoopT, hu, hneg]
  have hsetT : doSetValueT st
      (fun _ => ((false : Bool), (none : Option String))) = ((false, none), 1) := by
    simp [doSetValueT, hn, setLoopT]
  refine ⟨hu, hdo, ?_⟩
  simp [GetValT, hsetT, hdo]

/-- Claim C6 witness at a concrete input. -/
theorem cannot_set_expiration_surfaced_witness :
    updateValueT ⟨none, Except.ok 7, Except.ok (-1), Except.ok false⟩ =
      (7, -1, some cannotConfigureTimeout) ∧
    doUpdateValueT ⟨"limiter", 3⟩
        (fun _ => updateValueT
          ⟨none, Except.ok 7, Except.ok (-1), Except.ok false⟩) =
      ((0, 0, some cannotConfigureTimeout), 1) ∧
    GetValT ⟨"limiter", 3⟩ (fun _ => (false, none))
        (fun _ => updateValueT
          ⟨none, Except.ok 7, Except.ok (-1), Except.ok false⟩)
        "k" ⟨1000, 10⟩ 1 0 =
      Except.error ("limiter: cannot get value for " ++
        ((⟨"limiter", 3⟩ : Store).pfx ++ ":" ++ "k") ++ ": " ++
        cannotConfigureTimeout) := by
  exact cannot_set_expiration_surfaced
    ⟨none, Except.ok 7, Except.ok (-1), Except.ok false⟩ 7 (-1)
    ⟨"limiter", 3⟩ "k" ⟨1000, 10⟩ 1 0 rfl rfl rfl (by decide) rfl (by decide)

/-- Claim C8: the attempt budget is a positive bound on retry iterations:
a non-positive configured budget defaults to 1 at construction, and when
every attempt fails with a conflict-shaped error (an error whose observed
ttl is not negative), the increment retry loop makes exactly budget
attempts and then returns the retry-exhausted error. -/
theorem attempt_budget (opts : StoreOptions) (reply : Except String String)
    (st0 st : Store) (att : Nat → Int × Int × Option String)
    (hneg : opts.maxRetry ≤ 0)
    (hok : NewStoreWithOptions opts reply = Except.ok st0)
    (hfail : ∀ i, (att i).2.2 ≠ none ∧ 0 ≤ (att i).2.1) :
    st0.maxRetry = 1 ∧
    doUpdateValueT st att =
      ((0, 0, some retryLimitExceeded), st.maxRetry.toNat) := by
  constructor
  · rcases hrep : reply with e | pong
    · rw [hrep] at hok
      simp [NewStoreWithOptions, ping] at hok
    · rw [hrep] at hok
      simp [NewStoreWithOptions, ping, hneg] at hok
      rw [← hok]
  · simpa [doUpdateValueT] using updLoopT_allfail att hfail st.maxRetry.toNat 0

/-- Claim C8 witness: configured budget 0 defaults to 1; with budget 3 and
every attempt a conflict, exactly 3 attempts are made before the
retry-exhausted error. -/
theorem attempt_budget_witness :
    (⟨"limiter", 1⟩ : Store).maxRetry = 1 ∧
    doUpdateValueT ⟨"limiter", 3⟩
        (fun _ => (0, 0, some "transaction conflict")) =
      ((0, 0, some retryLimitExceeded),
       (⟨"limiter", 3⟩ : Store).maxRetry.toNat) := by
  exact attempt_budget ⟨"limiter", 0⟩ (Except.ok "PONG") ⟨"limiter", 1⟩
    ⟨"limiter", 3⟩ (fun _ => (0, 0, some "transaction conflict"))
    (by decide) rfl (fun i => ⟨by simp, by simp⟩)
